import Mathlib

/-!
Shallow embedding of the statistics core of the Advanced Expense Tracker
(`src/ai_advanced.py`).  Transactions carry exact rational amounts; the
floating-point arithmetic of the Python source is idealised as exact
arithmetic over ℚ (and over ℝ where the source takes square roots via
`np.std` / pandas `.std()`).  The scikit-learn regressors
(`RandomForestRegressor`, `Ridge`) are external library black boxes; they
are modelled as abstract fit-then-predict functions passed as parameters,
so every theorem below holds for all regressors.
-/

namespace ExpenseTracker

/-- A calendar date, as produced by `pd.to_datetime` on a parseable date
string (the external ledger provider guarantees parseability). -/
structure Date where
  year : ℤ
  month : ℕ
  day : ℕ
deriving DecidableEq, Repr

/-- One ledger record: `{Date, Category, Amount, Note}` columns of the
per-user dataframe. -/
structure Transaction where
  date : Date
  category : String
  amount : ℚ
  note : String
deriving DecidableEq, Repr

/-- A ledger snapshot: the dataframe rows in insertion order. -/
abbrev Ledger := List Transaction

/-! ### Python `round(x, n)` (banker's rounding), used by the source via
`round(float(prediction), 2)`, `round(probability, 1)` and
`round(recommended_budget, 2)`. -/

/-- Round to the nearest integer, ties to even — the rounding mode of
Python's built-in `round`. -/
def roundHalfEven {α : Type} [LinearOrderedField α] [FloorRing α] (y : α) : ℤ :=
  if y - ⌊y⌋ < 1/2 then ⌊y⌋
  else if 1/2 < y - ⌊y⌋ then ⌊y⌋ + 1
  else if Even ⌊y⌋ then ⌊y⌋ else ⌊y⌋ + 1

/-- Python `round(x, d)` for `d` decimal digits, idealised over an exact
ordered field. -/
def pyRound {α : Type} [LinearOrderedField α] [FloorRing α] (d : ℕ) (x : α) : α :=
  (roundHalfEven ((10 : α) ^ d * x) : α) / (10 : α) ^ d

/-! ### Current-month restriction (shared by `budget_alert` and
`predict_budget_breach`): rows whose date has the caller's current
month and year. -/

/-- The rows of the ledger dated in the current calendar month and year
(`df["Date"].dt.month == current_month` and `.dt.year == current_year`). -/
def currentMonthTxs (now : Date) (l : Ledger) : Ledger :=
  l.filter (fun t => t.date.month == now.month && t.date.year == now.year)

/-- `current_month_df["Amount"].sum()`. -/
def currentMonthTotal (now : Date) (l : Ledger) : ℚ :=
  ((currentMonthTxs now l).map Transaction.amount).sum

/-! ### `budget_alert(df, monthly_budget)` -/

/-- The five alert classes produced by `budget_alert`'s message cascade,
plus the empty-dataframe answer `"No data available"`. -/
inductive AlertLevel where
  | noData
  | exceeded
  | projectedToExceed
  | highUsage
  | onTrack
  | excellent
deriving DecidableEq, Repr

/-- `(total / monthly_budget) * 100 if monthly_budget > 0 else 0`. -/
def percentageUsed (now : Date) (l : Ledger) (monthly_budget : ℚ) : ℚ :=
  if 0 < monthly_budget then currentMonthTotal now l / monthly_budget * 100 else 0

/-- `daily_avg * days_in_month` with `days_in_month = 30` and
`daily_avg = total / current_day if current_day > 0 else 0` — both
`budget_alert` and `predict_budget_breach` project this way. -/
def projectedTotal (now : Date) (l : Ledger) : ℚ :=
  (if 0 < now.day then currentMonthTotal now l / (now.day : ℚ) else 0) * 30

/-- `budget_alert(df, monthly_budget)`: current-month total versus the
budget, with a velocity-based projection (`daily_avg * 30`), classified by
a first-match-wins cascade.  The human-readable f-string is abstracted to
its `AlertLevel`; the second component is the raw percentage also
returned by the source. -/
def budget_alert (now : Date) (l : Ledger) (monthly_budget : ℚ) : AlertLevel × ℚ :=
  if l.isEmpty then (.noData, 0)
  else
    let total := currentMonthTotal now l
    let percentage := percentageUsed now l monthly_budget
    let projected_total := projectedTotal now l
    if monthly_budget < total then (.exceeded, percentage)
    else if monthly_budget < projected_total then (.projectedToExceed, percentage)
    else if 80 < percentage then (.highUsage, percentage)
    else if 50 < percentage then (.onTrack, percentage)
    else (.excellent, percentage)

/-! ### `predict_budget_breach(df, monthly_budget)` -/

/-- The four message shapes of `predict_budget_breach`. -/
inductive BreachMessage where
  | insufficientData
  | noCurrentMonthData
  | highRisk
  | lowRisk
deriving DecidableEq, Repr

/-- `predict_budget_breach(df, monthly_budget)`: probability (as a
percentage rounded to one digit) of exceeding the budget this month,
from the current spending velocity. -/
def predict_budget_breach (now : Date) (l : Ledger) (monthly_budget : ℚ) :
    ℚ × BreachMessage :=
  if l.isEmpty then (0, .insufficientData)
  else
    let cur := currentMonthTxs now l
    if cur.isEmpty then (0, .noCurrentMonthData)
    else
      let projected_total := projectedTotal now l
      if monthly_budget < projected_total then
        let breach_percentage := (projected_total - monthly_budget) / monthly_budget * 100
        (pyRound 1 (min 100 (50 + breach_percentage)), .highRisk)
      else
        let safety_margin := (monthly_budget - projected_total) / monthly_budget * 100
        (pyRound 1 (max 0 (50 - safety_margin)), .lowRisk)

/-! ### `recommend_category_budgets(df, total_budget)` -/

/-- Insert into a list ahead of the first element not below `x` —
auxiliary for the ascending group-key order of pandas `groupby`. -/
def insertAsc {α : Type} (le : α → α → Bool) (x : α) : List α → List α
  | [] => [x]
  | y :: ys => if le x y then x :: y :: ys else y :: insertAsc le x ys

/-- Insertion sort, ascending by `le`. -/
def sortAsc {α : Type} (le : α → α → Bool) : List α → List α
  | [] => []
  | x :: xs => insertAsc le x (sortAsc le xs)

lemma mem_insertAsc {α : Type} (le : α → α → Bool) (x a : α) (ys : List α) :
    a ∈ insertAsc le x ys ↔ a = x ∨ a ∈ ys := by
  induction ys with
  | nil => simp [insertAsc]
  | cons y ys ih =>
    simp only [insertAsc]
    split_ifs
    · simp
    · simp [ih]
      tauto

lemma mem_sortAsc {α : Type} (le : α → α → Bool) (a : α) (xs : List α) :
    a ∈ sortAsc le xs ↔ a ∈ xs := by
  induction xs with
  | nil => simp [sortAsc]
  | cons x xs ih => simp [sortAsc, mem_insertAsc, ih]

/-- The distinct categories of the ledger, in the sorted order pandas
`groupby('Category')` produces its group keys. -/
def sortedCategories (l : Ledger) : List String :=
  sortAsc (fun a b => a ≤ b) ((l.map Transaction.category).dedup)

/-- `df.groupby('Category')['Amount'].sum()` evaluated at one category. -/
def categoryTotal (l : Ledger) (c : String) : ℚ :=
  ((l.filter (fun t => t.category == c)).map Transaction.amount).sum

/-- `category_totals.sum()`: total spending, summed over the groups. -/
def totalSpending (l : Ledger) : ℚ :=
  ((sortedCategories l).map (categoryTotal l)).sum

/-- `recommend_category_budgets(df, total_budget)`: each present category
gets `round(share * total_budget, 2)` where `share` is its historical
proportion of total spend; empty dataframe or zero total spend gives the
empty mapping. -/
def recommend_category_budgets (l : Ledger) (total_budget : ℚ) : List (String × ℚ) :=
  if l.isEmpty then []
  else if totalSpending l = 0 then []
  else (sortedCategories l).map (fun c =>
    (c, pyRound 2 (categoryTotal l c / totalSpending l * total_budget)))

/-! ### `monthly_forecast(df)` -/

/-- `data["Date"].dt.to_period("M")`: the month period of a row, as its
ordinal (a pandas monthly `Period` is ordered by `12 * year + month - 1`). -/
def periodOf (t : Transaction) : ℤ :=
  12 * t.date.year + (t.date.month : ℤ) - 1

/-- `x.month` of a monthly period: its month-of-year number. -/
def periodMonthNum (p : ℤ) : ℤ := p % 12 + 1

/-- The distinct month periods of the ledger, ascending — the group keys
of `data.groupby("Month")` (pandas sorts group keys). -/
def monthsOf (l : Ledger) : List ℤ :=
  sortAsc (fun a b => a ≤ b) ((l.map periodOf).dedup)

/-- `len(monthly)`: the number of distinct calendar months in the ledger. -/
def numMonths (l : Ledger) : ℕ := (monthsOf l).length

/-- The rows of the ledger falling in month period `p`. -/
def txsInMonth (l : Ledger) (p : ℤ) : Ledger :=
  l.filter (fun t => periodOf t == p)

/-- One row of the monthly aggregate table:
`{'Amount': ['sum', 'count', 'mean', 'std']}` for one month, after
`monthly['Std'].fillna(0)` (pandas sample std of a single value is NaN). -/
structure MonthRow where
  period : ℤ
  total : ℚ
  count : ℕ
  mean : ℚ
  std : ℝ

/-- The aggregate row of month `p`: sum, count, mean and sample standard
deviation (ddof = 1, with the single-observation NaN filled to 0) of the
amounts in that month. -/
noncomputable def monthRow (l : Ledger) (p : ℤ) : MonthRow :=
  let amounts := (txsInMonth l p).map Transaction.amount
  let mean := amounts.sum / (amounts.length : ℚ)
  { period := p
    total := amounts.sum
    count := amounts.length
    mean := mean
    std := if amounts.length < 2 then 0
      else Real.sqrt ((amounts.map (fun a => ((a : ℝ) - (mean : ℝ)) ^ 2)).sum
        / ((amounts.length : ℝ) - 1)) }

/-- The monthly aggregate table `monthly`, one row per distinct month,
in ascending month order. -/
noncomputable def monthlyTable (l : Ledger) : List MonthRow :=
  (monthsOf l).map (monthRow l)

/-- The training matrix `X = monthly[["Index", "Count", "Mean", "Std",
"Month_Num"]]`: per month, its 0-based index in the sorted table, its
transaction count, mean, standard deviation, and month-of-year number. -/
noncomputable def featureRows (l : Ledger) : List (List ℝ) :=
  (monthlyTable l).enum.map (fun ir =>
    [(ir.1 : ℝ), (ir.2.count : ℝ), (ir.2.mean : ℝ), ir.2.std,
      (periodMonthNum ir.2.period : ℝ)])

/-- The training target `y = monthly["Total"]`. -/
noncomputable def totalsCol (l : Ledger) : List ℝ :=
  (monthlyTable l).map (fun r => (r.total : ℝ))

/-- The `Count` column of the monthly table, as floats. -/
noncomputable def countCol (l : Ledger) : List ℝ :=
  (monthlyTable l).map (fun r => (r.count : ℝ))

/-- The `Mean` column of the monthly table, as floats. -/
noncomputable def meanCol (l : Ledger) : List ℝ :=
  (monthlyTable l).map (fun r => (r.mean : ℝ))

/-- The `Std` column of the monthly table. -/
noncomputable def stdCol (l : Ledger) : List ℝ :=
  (monthlyTable l).map (fun r => r.std)

/-- Column average, `monthly[col].mean()`. -/
noncomputable def colAvg (xs : List ℝ) : ℝ := xs.sum / (xs.length : ℝ)

/-- `np.std(xs)`: population standard deviation. -/
noncomputable def popStd (xs : List ℝ) : ℝ :=
  Real.sqrt ((xs.map (fun r => (r - xs.sum / (xs.length : ℝ)) ^ 2)).sum
    / (xs.length : ℝ))

/-- The interface of a scikit-learn regressor as the source uses it:
`model.fit(X, y)` followed by `model.predict` on one feature row.  Both
`RandomForestRegressor(n_estimators=100, random_state=42)` and
`Ridge(alpha=1.0)` are deterministic external library code, modelled as
abstract functions of this type. -/
abbrev RegFit := List (List ℝ) → List ℝ → List ℝ → ℝ

/-- `monthly_forecast(df)`: monthly aggregation, model selection
(`RandomForestRegressor` for ≥ 3 months, else `Ridge`), prediction of the
next month's total from a synthetic feature row, and a 95% confidence
interval from the training residuals.  Returns the triple
`(monthly_df, prediction_value, confidence_interval)`, each component
`none` where the source returns `None`. -/
noncomputable def monthly_forecast (rfFit ridgeFit : RegFit) (now : Date) (l : Ledger) :
    Option (List MonthRow) × Option ℝ × Option (ℝ × ℝ) :=
  if l.isEmpty then (none, none, none)
  else
    let monthly := monthlyTable l
    if monthly.length < 2 then (some monthly, none, none)
    else
      let X := featureRows l
      let y := totalsCol l
      let model := (if 3 ≤ monthly.length then rfFit else ridgeFit) X y
      let next_month := now.month
      let future_features :=
        [(monthly.length : ℝ), colAvg (countCol l), colAvg (meanCol l),
          colAvg (stdCol l), (next_month : ℝ)]
      let prediction := model future_features
      let predictions := X.map model
      let residuals := y.zipWith (· - ·) predictions
      let std_error := popStd residuals
      let confidence_interval :=
        (max 0 (prediction - 1.96 * std_error), prediction + 1.96 * std_error)
      (some monthly, some (pyRound 2 (max 0 prediction)), some confidence_interval)

/-! ### `detect_spending_anomalies(df)` -/

/-- The `Amount` column as floats. -/
noncomputable def amountsOf (l : Ledger) : List ℝ :=
  l.map (fun t => (t.amount : ℝ))

/-- `np.mean(amounts)`. -/
noncomputable def amountsMean (l : Ledger) : ℝ :=
  (amountsOf l).sum / ((amountsOf l).length : ℝ)

/-- `np.std(amounts)` (population standard deviation). -/
noncomputable def amountsStd (l : Ledger) : ℝ := popStd (amountsOf l)

/-- `np.abs((amounts - mean) / std)`, per row.  The NaN produced by numpy
when `std = 0` is modelled by Lean's total division (`x / 0 = 0`); both
make the strict threshold comparison below false, so the function's
output agrees. -/
noncomputable def zScores (l : Ledger) : List ℝ :=
  (amountsOf l).map (fun a => |(a - amountsMean l) / amountsStd l|)

open Classical in
/-- `detect_spending_anomalies(df)`: below 10 rows returns `[]`;
otherwise returns, in ledger order, the rows whose z-score strictly
exceeds the threshold 2.5, each tagged with its z-score. -/
noncomputable def detect_spending_anomalies (l : Ledger) : List (Transaction × ℝ) :=
  if l.length < 10 then []
  else (l.zip (zScores l)).filter (fun p => 2.5 < p.2)

/-! ### Facts about Python rounding -/

section RoundLemmas

variable {α : Type} [LinearOrderedField α] [FloorRing α]

lemma le_roundHalfEven {y : α} {n : ℤ} (h : (n : α) ≤ y) : n ≤ roundHalfEven y := by
  have hf : n ≤ ⌊y⌋ := Int.le_floor.mpr h
  unfold roundHalfEven
  split_ifs <;> omega

lemma roundHalfEven_le {y : α} {n : ℤ} (h : y ≤ (n : α)) : roundHalfEven y ≤ n := by
  have hf : ⌊y⌋ ≤ n := by
    have := Int.floor_le_floor h
    simpa using this
  have hfl : (⌊y⌋ : α) ≤ y := Int.floor_le y
  unfold roundHalfEven
  split_ifs with h1 h2 h3
  · exact hf
  · -- here 1/2 < y - ⌊y⌋, so ⌊y⌋ cannot equal n
    rcases lt_or_eq_of_le hf with h' | h'
    · omega
    · exfalso
      rw [h'] at h2
      have : y ≤ (⌊y⌋ : α) := by rw [h']; exact_mod_cast h
      linarith
  · exact hf
  · -- tie branch rounding up: again ⌊y⌋ < n
    rcases lt_or_eq_of_le hf with h' | h'
    · omega
    · exfalso
      have hy : y - (⌊y⌋ : α) = 1/2 := le_antisymm (not_lt.mp h2) (not_lt.mp h1)
      have : y ≤ (⌊y⌋ : α) := by rw [h']; exact_mod_cast h
      linarith

lemma abs_roundHalfEven_sub_le (y : α) : |(roundHalfEven y : α) - y| ≤ 1/2 := by
  have h0 : (⌊y⌋ : α) ≤ y := Int.floor_le y
  have h1 : y < (⌊y⌋ : α) + 1 := Int.lt_floor_add_one y
  unfold roundHalfEven
  split_ifs with ha hb hc
  · rw [abs_le]; constructor <;> linarith
  · rw [abs_le]; push_cast; constructor <;> linarith
  · have hy : y - (⌊y⌋ : α) = 1/2 := le_antisymm (not_lt.mp hb) (not_lt.mp ha)
    rw [abs_le]; constructor <;> linarith
  · have hy : y - (⌊y⌋ : α) = 1/2 := le_antisymm (not_lt.mp hb) (not_lt.mp ha)
    rw [abs_le]; push_cast; constructor <;> linarith

lemma pyRound_nonneg {d : ℕ} {x : α} (h : 0 ≤ x) : 0 ≤ pyRound d x := by
  unfold pyRound
  have hp : (0 : α) < (10 : α) ^ d := by positivity
  have : (0 : ℤ) ≤ roundHalfEven ((10 : α) ^ d * x) := by
    refine le_roundHalfEven ?_
    push_cast
    positivity
  exact div_nonneg (by exact_mod_cast this) hp.le

lemma pyRound_le_intCast {d : ℕ} {x : α} {n : ℤ} (h : x ≤ (n : α)) :
    pyRound d x ≤ (n : α) := by
  unfold pyRound
  have hp : (0 : α) < (10 : α) ^ d := by positivity
  have hmul : (10 : α) ^ d * x ≤ ((10 ^ d * n : ℤ) : α) := by
    push_cast
    exact mul_le_mul_of_nonneg_left h hp.le
  have := roundHalfEven_le hmul
  rw [div_le_iff₀ hp]
  calc ((roundHalfEven ((10 : α) ^ d * x) : α)) ≤ ((10 ^ d * n : ℤ) : α) := by
        exact_mod_cast this
    _ = (n : α) * (10 : α) ^ d := by push_cast; ring

lemma abs_pyRound_sub_le (d : ℕ) (x : α) :
    |pyRound d x - x| ≤ 1 / (2 * (10 : α) ^ d) := by
  unfold pyRound
  have hp : (0 : α) < (10 : α) ^ d := by positivity
  have h := abs_roundHalfEven_sub_le ((10 : α) ^ d * x)
  have key : pyRound d x - x
      = ((roundHalfEven ((10 : α) ^ d * x) : α) - (10 : α) ^ d * x) / (10 : α) ^ d := by
    unfold pyRound
    field_simp
  rw [show (roundHalfEven ((10:α)^d * x) : α) / (10:α)^d - x
      = ((roundHalfEven ((10:α)^d * x) : α) - (10:α)^d * x) / (10:α)^d by field_simp,
    abs_div, abs_of_pos hp, div_le_div_iff₀ hp (by positivity)]
  calc |(roundHalfEven ((10:α)^d * x) : α) - (10:α)^d * x| * (2 * (10:α)^d)
      ≤ (1/2) * (2 * (10:α)^d) := by
        exact mul_le_mul_of_nonneg_right h (by positivity)
    _ = 1 * (10:α)^d := by ring

end RoundLemmas

/-! ### Claim theorems -/

/-- The trained model of `monthly_forecast`: the regressor chosen by the
`len(monthly) >= 3` test, fitted on the feature matrix and the monthly
totals. -/
noncomputable def chosenFit (rf ridge : RegFit) (l : Ledger) : List ℝ → ℝ :=
  (if 3 ≤ (monthlyTable l).length then rf else ridge) (featureRows l) (totalsCol l)

/-- `np.std(residuals)` where `residuals = y - model.predict(X)`: the
standard deviation of the training residuals of the chosen model. -/
noncomputable def residualStd (rf ridge : RegFit) (l : Ledger) : ℝ :=
  popStd ((totalsCol l).zipWith (· - ·) ((featureRows l).map (chosenFit rf ridge l)))

lemma length_monthlyTable (l : Ledger) : (monthlyTable l).length = numMonths l := by
  simp [monthlyTable, numMonths]

lemma isEmpty_false_of_numMonths_pos (l : Ledger) (h : 0 < numMonths l) :
    l.isEmpty = false := by
  cases l with
  | nil => simp [numMonths, monthsOf, sortAsc] at h
  | cons a as => rfl

lemma pyRound_zero {α : Type} [LinearOrderedField α] [FloorRing α] (d : ℕ) :
    pyRound d (0 : α) = 0 := by
  unfold pyRound roundHalfEven
  norm_num

/-- C1: an empty ledger gives the (None, None, None) no-data result, and
a nonempty ledger spanning fewer than 2 distinct calendar months gives
the aggregate table with a null prediction and a null confidence
interval. -/
theorem monthly_forecast_insufficient_data (rf ridge : RegFit) (now : Date) (l : Ledger) :
    (l = [] → monthly_forecast rf ridge now l = (none, none, none)) ∧
    (l ≠ [] → numMonths l < 2 →
      monthly_forecast rf ridge now l = (some (monthlyTable l), none, none)) := by
  constructor
  · rintro rfl
    rfl
  · intro hne hlt
    have hE : l.isEmpty = false := by
      cases l with
      | nil => exact absurd rfl hne
      | cons a as => rfl
    simp only [monthly_forecast, hE, Bool.false_eq_true, if_false]
    rw [if_pos (by rw [length_monthlyTable]; exact hlt)]

/-- C1 witness: the empty ledger, and a one-month ledger. -/
theorem monthly_forecast_insufficient_data_witness :
    monthly_forecast (fun _ _ _ => 0) (fun _ _ _ => 0) ⟨2025, 10, 12⟩ []
      = (none, none, none) ∧
    monthly_forecast (fun _ _ _ => 0) (fun _ _ _ => 0) ⟨2025, 10, 12⟩
        [⟨⟨2025, 9, 10⟩, "Food", 100, ""⟩]
      = (some (monthlyTable [⟨⟨2025, 9, 10⟩, "Food", 100, ""⟩]), none, none) :=
  ⟨(monthly_forecast_insufficient_data _ _ ⟨2025, 10, 12⟩ []).1 rfl,
    (monthly_forecast_insufficient_data _ _ ⟨2025, 10, 12⟩ _).2 (by decide) (by decide)⟩

/-- C2: whenever `monthly_forecast` returns a prediction, the prediction
is the raw model output clamped at 0 (then rounded to 2 digits), hence
non-negative, and the confidence interval is the raw prediction ±
1.96 × the standard deviation of the training residuals with only the
lower endpoint clamped at 0, hence the lower endpoint is non-negative. -/
theorem monthly_forecast_prediction_nonneg (rf ridge : RegFit) (now : Date)
    (l : Ledger) (m : List MonthRow) (p : ℝ) (ci : ℝ × ℝ)
    (h : monthly_forecast rf ridge now l = (some m, some p, some ci)) :
    0 ≤ p ∧ 0 ≤ ci.1 ∧
    ∃ praw, p = pyRound 2 (max 0 praw) ∧
      ci = (max 0 (praw - 1.96 * residualStd rf ridge l),
            praw + 1.96 * residualStd rf ridge l) := by
  simp only [monthly_forecast] at h
  split_ifs at h with hE hlt hge
  · simp at h
  · simp at h
  · simp only [Prod.mk.injEq, Option.some.injEq] at h
    obtain ⟨hm, hp, hc⟩ := h
    refine ⟨?_, ?_, ?_⟩
    · rw [← hp]
      exact pyRound_nonneg (le_max_left _ _)
    · rw [← hc]
      exact le_max_left _ _
    · refine ⟨rf (featureRows l) (totalsCol l)
        [((monthlyTable l).length : ℝ), colAvg (countCol l), colAvg (meanCol l),
          colAvg (stdCol l), (now.month : ℝ)], ?_, ?_⟩
      · rw [← hp]
      · rw [← hc]
        simp only [residualStd, chosenFit, if_pos hge]
  · simp only [Prod.mk.injEq, Option.some.injEq] at h
    obtain ⟨hm, hp, hc⟩ := h
    refine ⟨?_, ?_, ?_⟩
    · rw [← hp]
      exact pyRound_nonneg (le_max_left _ _)
    · rw [← hc]
      exact le_max_left _ _
    · refine ⟨ridge (featureRows l) (totalsCol l)
        [((monthlyTable l).length : ℝ), colAvg (countCol l), colAvg (meanCol l),
          colAvg (stdCol l), (now.month : ℝ)], ?_, ?_⟩
      · rw [← hp]
      · rw [← hc]
        simp only [residualStd, chosenFit, if_neg hge]

/-- C3: with at least 3 distinct months of history the forecast is
computed by the first (random-forest) regressor and is independent of
the second (ridge) regressor; with exactly 2 distinct months it is
computed by the ridge regressor and is independent of the random-forest
one.  The branch tests only the count of distinct months. -/
theorem monthly_forecast_model_selection (rf rf' ridge ridge' : RegFit)
    (now : Date) (l : Ledger) :
    (3 ≤ numMonths l →
      monthly_forecast rf ridge now l = monthly_forecast rf ridge' now l ∧
      (monthly_forecast rf ridge now l).2.1
        = some (pyRound 2 (max 0 (rf (featureRows l) (totalsCol l)
            [(numMonths l : ℝ), colAvg (countCol l), colAvg (meanCol l),
              colAvg (stdCol l), (now.month : ℝ)])))) ∧
    (numMonths l = 2 →
      monthly_forecast rf ridge now l = monthly_forecast rf' ridge now l ∧
      (monthly_forecast rf ridge now l).2.1
        = some (pyRound 2 (max 0 (ridge (featureRows l) (totalsCol l)
            [(numMonths l : ℝ), colAvg (countCol l), colAvg (meanCol l),
              colAvg (stdCol l), (now.month : ℝ)])))) := by
  have hlen := length_monthlyTable l
  constructor
  · intro h3
    have hE : l.isEmpty = false :=
      isEmpty_false_of_numMonths_pos l (by omega)
    have hnotlt : ¬ (monthlyTable l).length < 2 := by omega
    have hge : 3 ≤ (monthlyTable l).length := by omega
    constructor
    · simp only [monthly_forecast, hE, Bool.false_eq_true, if_false,
        if_neg hnotlt, if_pos hge]
    · simp only [monthly_forecast, hE, Bool.false_eq_true, if_false,
        if_neg hnotlt, if_pos hge]
      rw [hlen]
  · intro h2
    have hE : l.isEmpty = false :=
      isEmpty_false_of_numMonths_pos l (by omega)
    have hnotlt : ¬ (monthlyTable l).length < 2 := by omega
    have hnotge : ¬ 3 ≤ (monthlyTable l).length := by omega
    constructor
    · simp only [monthly_forecast, hE, Bool.false_eq_true, if_false,
        if_neg hnotlt, if_neg hnotge]
    · simp only [monthly_forecast, hE, Bool.false_eq_true, if_false,
        if_neg hnotlt, if_neg hnotge]
      rw [hlen]

/-- C4: whenever `monthly_forecast` predicts, the prediction is the
chosen model evaluated at the synthetic feature row whose index is the
number of months of history, whose count/mean/std are the historical
column averages, and whose month-of-year is the calendar month taken
from the wall clock (the month being forecast). -/
theorem monthly_forecast_future_row (rf ridge : RegFit) (now : Date)
    (l : Ledger) (m : List MonthRow) (p : ℝ) (ci : ℝ × ℝ)
    (h : monthly_forecast rf ridge now l = (some m, some p, some ci)) :
    p = pyRound 2 (max 0 (chosenFit rf ridge l
      [(numMonths l : ℝ), colAvg (countCol l), colAvg (meanCol l),
        colAvg (stdCol l), (now.month : ℝ)])) := by
  have hlen := length_monthlyTable l
  simp only [monthly_forecast] at h
  split_ifs at h with hE hlt hge
  · simp at h
  · simp at h
  · simp only [Prod.mk.injEq, Option.some.injEq] at h
    rw [← h.2.1, hlen]
    simp only [chosenFit, if_pos hge]
  · simp only [Prod.mk.injEq, Option.some.injEq] at h
    rw [← h.2.1, hlen]
    simp only [chosenFit, if_neg hge]

/-- A concrete ledger spanning exactly two months, one transaction of
100 in each — used to exercise the prediction path of
`monthly_forecast`. -/
def twoMonthLedger : Ledger :=
  [⟨⟨2025, 9, 10⟩, "Food", 100, ""⟩, ⟨⟨2025, 10, 11⟩, "Food", 100, ""⟩]

lemma popStd_pair (c : ℝ) : popStd [c, c] = 0 := by
  have h : (([c, c] : List ℝ).map
      (fun r => (r - ([c, c] : List ℝ).sum / (([c, c] : List ℝ).length : ℝ)) ^ 2)).sum
      / (([c, c] : List ℝ).length : ℝ) = 0 := by
    simp only [List.sum_cons, List.sum_nil, List.map_cons, List.map_nil,
      List.length_cons, List.length_nil]
    push_cast
    ring
  unfold popStd
  rw [h, Real.sqrt_zero]

lemma monthlyTable_twoMonth :
    monthlyTable twoMonthLedger
      = [monthRow twoMonthLedger 24308, monthRow twoMonthLedger 24309] := by
  rw [monthlyTable, show monthsOf twoMonthLedger = [24308, 24309] from by decide]
  rfl

lemma totalsCol_twoMonth : totalsCol twoMonthLedger = [100, 100] := by
  have ht0 : (monthRow twoMonthLedger 24308).total = 100 := by
    simp only [monthRow]
    rw [show txsInMonth twoMonthLedger 24308
        = [⟨⟨2025, 9, 10⟩, "Food", 100, ""⟩] from by decide]
    norm_num
  have ht1 : (monthRow twoMonthLedger 24309).total = 100 := by
    simp only [monthRow]
    rw [show txsInMonth twoMonthLedger 24309
        = [⟨⟨2025, 10, 11⟩, "Food", 100, ""⟩] from by decide]
    norm_num
  rw [totalsCol, monthlyTable_twoMonth]
  simp [ht0, ht1]

lemma length_monthlyTable_twoMonth : (monthlyTable twoMonthLedger).length = 2 := by
  rw [monthlyTable_twoMonth]
  rfl

lemma featureRows_twoMonth_length : (featureRows twoMonthLedger).length = 2 := by
  simp [featureRows, length_monthlyTable_twoMonth]

/-- Evaluating `monthly_forecast` with constant-zero regressors on the
two-month ledger: the totals are equal, so the residual deviation is 0
and the whole forecast collapses to 0 with interval (0, 0). -/
lemma monthly_forecast_eval_twoMonth :
    monthly_forecast (fun _ _ _ => 0) (fun _ _ _ => 0) ⟨2025, 10, 12⟩ twoMonthLedger
      = (some (monthlyTable twoMonthLedger), some 0, some (0, 0)) := by
  have hR : List.zipWith (· - ·) (totalsCol twoMonthLedger)
      ((featureRows twoMonthLedger).map (fun _ => (0 : ℝ))) = [100, 100] := by
    rw [totalsCol_twoMonth, List.map_const', featureRows_twoMonth_length]
    norm_num [List.zipWith]
  simp only [monthly_forecast]
  rw [show twoMonthLedger.isEmpty = false from rfl]
  simp only [Bool.false_eq_true, if_false]
  rw [if_neg (by rw [length_monthlyTable_twoMonth]; norm_num),
    if_neg (by rw [length_monthlyTable_twoMonth]; norm_num)]
  simp only [hR, popStd_pair]
  norm_num [pyRound_zero]

/-- A concrete ledger spanning exactly three months. -/
def threeMonthLedger : Ledger :=
  [⟨⟨2025, 8, 1⟩, "Food", 100, ""⟩, ⟨⟨2025, 9, 10⟩, "Food", 100, ""⟩,
    ⟨⟨2025, 10, 11⟩, "Food", 100, ""⟩]

/-- C2 witness: the constant-zero regressors on the two-month ledger
yield prediction 0 and interval (0, 0), instantiating the clamping
facts. -/
theorem monthly_forecast_prediction_nonneg_witness :
    0 ≤ (0 : ℝ) ∧ 0 ≤ ((0 : ℝ), (0 : ℝ)).1 ∧
    ∃ praw, (0 : ℝ) = pyRound 2 (max 0 praw) ∧
      ((0 : ℝ), (0 : ℝ))
        = (max 0 (praw - 1.96 * residualStd (fun _ _ _ => 0) (fun _ _ _ => 0)
              twoMonthLedger),
           praw + 1.96 * residualStd (fun _ _ _ => 0) (fun _ _ _ => 0)
              twoMonthLedger) :=
  monthly_forecast_prediction_nonneg _ _ ⟨2025, 10, 12⟩ twoMonthLedger
    (monthlyTable twoMonthLedger) 0 (0, 0) monthly_forecast_eval_twoMonth

/-- C3 witness: on a three-month ledger the forecast ignores the ridge
regressor; on a two-month ledger it ignores the random-forest one. -/
theorem monthly_forecast_model_selection_witness :
    monthly_forecast (fun _ _ _ => 0) (fun _ _ _ => 1) ⟨2025, 10, 12⟩ threeMonthLedger
      = monthly_forecast (fun _ _ _ => 0) (fun _ _ _ => 2) ⟨2025, 10, 12⟩
          threeMonthLedger ∧
    monthly_forecast (fun _ _ _ => 0) (fun _ _ _ => 1) ⟨2025, 10, 12⟩ twoMonthLedger
      = monthly_forecast (fun _ _ _ => 3) (fun _ _ _ => 1) ⟨2025, 10, 12⟩
          twoMonthLedger :=
  ⟨((monthly_forecast_model_selection (fun _ _ _ => 0) (fun _ _ _ => 3)
      (fun _ _ _ => 1) (fun _ _ _ => 2) ⟨2025, 10, 12⟩ threeMonthLedger).1
      (by decide)).1,
   ((monthly_forecast_model_selection (fun _ _ _ => 0) (fun _ _ _ => 3)
      (fun _ _ _ => 1) (fun _ _ _ => 2) ⟨2025, 10, 12⟩ twoMonthLedger).2
      (by decide)).1⟩

/-- C4 witness: on the two-month ledger with constant-zero regressors,
the returned prediction is the (rounded, clamped) model output at the
synthetic feature row. -/
theorem monthly_forecast_future_row_witness :
    (0 : ℝ) = pyRound 2 (max 0 (chosenFit (fun _ _ _ => 0) (fun _ _ _ => 0)
      twoMonthLedger
      [(numMonths twoMonthLedger : ℝ), colAvg (countCol twoMonthLedger),
        colAvg (meanCol twoMonthLedger), colAvg (stdCol twoMonthLedger),
        ((⟨2025, 10, 12⟩ : Date).month : ℝ)])) :=
  monthly_forecast_future_row _ _ ⟨2025, 10, 12⟩ twoMonthLedger
    (monthlyTable twoMonthLedger) 0 (0, 0) monthly_forecast_eval_twoMonth

/-- C5: `budget_alert` classifies by a first-match-wins cascade:
current-month total above the budget yields "exceeded"; otherwise a
projection above the budget yields "projected to exceed"; otherwise
percentage above 80 yields "high usage"; otherwise percentage above 50
yields "on track"; otherwise "excellent".  For a zero current-month
total and any positive budget, the percentage is 0 and the class is
"excellent". -/
theorem budget_alert_classification (now : Date) (l : Ledger) (budget : ℚ)
    (hne : l ≠ []) :
    (budget_alert now l budget).2 = percentageUsed now l budget ∧
    ((budget_alert now l budget).1 = AlertLevel.exceeded ↔
        budget < currentMonthTotal now l) ∧
    ((budget_alert now l budget).1 = AlertLevel.projectedToExceed ↔
        currentMonthTotal now l ≤ budget ∧ budget < projectedTotal now l) ∧
    ((budget_alert now l budget).1 = AlertLevel.highUsage ↔
        currentMonthTotal now l ≤ budget ∧ projectedTotal now l ≤ budget ∧
        80 < percentageUsed now l budget) ∧
    ((budget_alert now l budget).1 = AlertLevel.onTrack ↔
        currentMonthTotal now l ≤ budget ∧ projectedTotal now l ≤ budget ∧
        percentageUsed now l budget ≤ 80 ∧ 50 < percentageUsed now l budget) ∧
    ((budget_alert now l budget).1 = AlertLevel.excellent ↔
        currentMonthTotal now l ≤ budget ∧ projectedTotal now l ≤ budget ∧
        percentageUsed now l budget ≤ 50) ∧
    (currentMonthTotal now l = 0 → 0 < budget →
        (budget_alert now l budget).2 = 0 ∧
        (budget_alert now l budget).1 = AlertLevel.excellent) := by
  have hE : l.isEmpty = false := by
    cases l with
    | nil => exact absurd rfl hne
    | cons a as => rfl
  have hzero : currentMonthTotal now l = 0 → 0 < budget →
      percentageUsed now l budget = 0 ∧ projectedTotal now l = 0 := by
    intro hT hb
    constructor
    · simp [percentageUsed, hT, hb]
    · simp [projectedTotal, hT]
  simp only [budget_alert, hE, Bool.false_eq_true, if_false]
  split_ifs with h1 h2 h3 h4
  · refine ⟨rfl, by simp [h1], by simp [not_le.mpr h1], by simp [not_le.mpr h1],
      by simp [not_le.mpr h1], by simp [not_le.mpr h1], fun hT hb => ?_⟩
    obtain ⟨hp, hq⟩ := hzero hT hb
    rw [hT] at h1
    exact absurd h1 (not_lt.mpr hb.le)
  · refine ⟨rfl, by simp [h1], by simp [not_lt.mp h1, h2], by simp [not_le.mpr h2],
      by simp [not_le.mpr h2], by simp [not_le.mpr h2], fun hT hb => ?_⟩
    obtain ⟨hp, hq⟩ := hzero hT hb
    rw [hq] at h2
    exact absurd h2 (not_lt.mpr hb.le)
  · refine ⟨rfl, iff_of_false (by decide) h1, iff_of_false (by decide) (fun h => h2 h.2),
      iff_of_true rfl ⟨not_lt.mp h1, not_lt.mp h2, h3⟩,
      iff_of_false (by decide) (fun h => absurd h3 (not_lt.mpr h.2.2.1)),
      iff_of_false (by decide)
        (fun h => absurd h3 (not_lt.mpr (le_trans h.2.2 (by norm_num)))),
      fun hT hb => ?_⟩
    obtain ⟨hp, hq⟩ := hzero hT hb
    rw [hp] at h3
    norm_num at h3
  · refine ⟨rfl, iff_of_false (by decide) h1, iff_of_false (by decide) (fun h => h2 h.2),
      iff_of_false (by decide) (fun h => h3 h.2.2),
      iff_of_true rfl ⟨not_lt.mp h1, not_lt.mp h2, not_lt.mp h3, h4⟩,
      iff_of_false (by decide) (fun h => absurd h4 (not_lt.mpr h.2.2)),
      fun hT hb => ?_⟩
    obtain ⟨hp, hq⟩ := hzero hT hb
    rw [hp] at h4
    norm_num at h4
  · refine ⟨rfl, iff_of_false (by decide) h1, iff_of_false (by decide) (fun h => h2 h.2),
      iff_of_false (by decide) (fun h => h3 h.2.2),
      iff_of_false (by decide) (fun h => h4 h.2.2.2),
      iff_of_true rfl ⟨not_lt.mp h1, not_lt.mp h2, not_lt.mp h4⟩,
      fun hT hb => ?_⟩
    exact ⟨(hzero hT hb).1, rfl⟩

/-- C5 witness: a concrete nonempty ledger with no spending in the
current month and budget 1000 is classified "excellent" at percentage 0. -/
theorem budget_alert_classification_witness :
    (budget_alert ⟨2025, 10, 12⟩
        [⟨⟨2025, 9, 3⟩, "Food", 250, "lunch"⟩] 1000).2 = 0 ∧
    (budget_alert ⟨2025, 10, 12⟩
        [⟨⟨2025, 9, 3⟩, "Food", 250, "lunch"⟩] 1000).1 = AlertLevel.excellent := by
  have h := budget_alert_classification ⟨2025, 10, 12⟩
    [⟨⟨2025, 9, 3⟩, "Food", 250, "lunch"⟩] 1000 (by decide)
  exact h.2.2.2.2.2.2 (by decide) (by decide)

/-- C7: on a ledger of at least 10 transactions whose amounts are all
identical, the population standard deviation is 0; the resulting
undefined z-scores (NaN in numpy, total division in this model — both
fail the strict threshold test) flag nothing, and the function returns
the empty list rather than propagating them. -/
theorem detect_anomalies_identical_amounts (l : Ledger) (hlen : 10 ≤ l.length)
    (hconst : ∀ t1 ∈ l, ∀ t2 ∈ l, t1.amount = t2.amount) :
    detect_spending_anomalies l = [] := by
  have hne : l ≠ [] := by
    intro h
    rw [h] at hlen
    simp at hlen
  obtain ⟨t0, hl0⟩ := List.exists_mem_of_ne_nil l hne
  have hall : ∀ a ∈ amountsOf l, a = ((t0.amount : ℚ) : ℝ) := by
    intro a ha
    obtain ⟨t, ht, rfl⟩ := List.mem_map.mp ha
    exact_mod_cast congrArg (fun q => ((q : ℚ) : ℝ)) (hconst t ht t0 hl0)
  have hlpos : (0 : ℝ) < ((amountsOf l).length : ℝ) := by
    have : 10 ≤ (amountsOf l).length := by
      rw [amountsOf, List.length_map]
      exact hlen
    exact_mod_cast Nat.lt_of_lt_of_le (by norm_num) this
  have hmean : amountsMean l = ((t0.amount : ℚ) : ℝ) := by
    unfold amountsMean
    rw [List.sum_eq_card_nsmul _ _ hall, nsmul_eq_mul]
    field_simp
  have hz : ∀ z ∈ zScores l, z = 0 := by
    intro z hzz
    obtain ⟨a, ha, rfl⟩ := List.mem_map.mp hzz
    rw [hall a ha, hmean]
    simp
  unfold detect_spending_anomalies
  rw [if_neg (by omega)]
  refine List.filter_eq_nil_iff.mpr ?_
  rintro ⟨t, z⟩ hp
  have h2 := (List.of_mem_zip hp).2
  have := hz z h2
  simp [this]
  norm_num

/-- C7 witness: ten identical transactions of 5 produce no anomalies. -/
theorem detect_anomalies_identical_amounts_witness :
    detect_spending_anomalies
      [⟨⟨2025, 9, 1⟩, "Food", 5, ""⟩, ⟨⟨2025, 9, 2⟩, "Food", 5, ""⟩,
       ⟨⟨2025, 9, 3⟩, "Food", 5, ""⟩, ⟨⟨2025, 9, 4⟩, "Food", 5, ""⟩,
       ⟨⟨2025, 9, 5⟩, "Food", 5, ""⟩, ⟨⟨2025, 9, 6⟩, "Food", 5, ""⟩,
       ⟨⟨2025, 9, 7⟩, "Food", 5, ""⟩, ⟨⟨2025, 9, 8⟩, "Food", 5, ""⟩,
       ⟨⟨2025, 9, 9⟩, "Food", 5, ""⟩, ⟨⟨2025, 9, 10⟩, "Food", 5, ""⟩] = [] :=
  detect_anomalies_identical_amounts _ (by decide) (by decide)

/-- C6: on fewer than 10 transactions, anomaly detection returns the
empty list, regardless of the amounts. -/
theorem detect_anomalies_below_min_size (l : Ledger) (h : l.length < 10) :
    detect_spending_anomalies l = [] := by
  unfold detect_spending_anomalies
  rw [if_pos h]

/-- C6 witness: two transactions with wildly different amounts are still
below the 10-row minimum, so no anomaly is reported. -/
theorem detect_anomalies_below_min_size_witness :
    detect_spending_anomalies
      [⟨⟨2025, 1, 1⟩, "Food", 1, ""⟩, ⟨⟨2025, 1, 2⟩, "Travel", 1000000, ""⟩] = [] :=
  detect_anomalies_below_min_size _ (by decide)

/-- C10: with a positive budget, the breach probability returned by
`predict_budget_breach` lies in `[0, 100]`, and it is 0 on an empty
ledger and on a ledger with no current-month transactions. -/
theorem predict_budget_breach_bounds (now : Date) (l : Ledger) (budget : ℚ)
    (hb : 0 < budget) :
    0 ≤ (predict_budget_breach now l budget).1 ∧
    (predict_budget_breach now l budget).1 ≤ 100 ∧
    (l = [] → (predict_budget_breach now l budget).1 = 0) ∧
    (currentMonthTxs now l = [] → (predict_budget_breach now l budget).1 = 0) := by
  simp only [predict_budget_breach]
  split_ifs with hE hC hP
  · exact ⟨le_refl 0, by norm_num, fun _ => rfl, fun _ => rfl⟩
  · exact ⟨le_refl 0, by norm_num, fun _ => rfl, fun _ => rfl⟩
  · -- high-risk branch: projection exceeds the budget
    have hbp : 0 ≤ (projectedTotal now l - budget) / budget * 100 := by
      have h1 : 0 ≤ projectedTotal now l - budget := by linarith
      positivity
    refine ⟨pyRound_nonneg (le_min (by norm_num) (by linarith)), ?_, ?_, ?_⟩
    · have : min (100 : ℚ) (50 + (projectedTotal now l - budget) / budget * 100)
          ≤ ((100 : ℤ) : ℚ) := by exact_mod_cast min_le_left _ _
      have := pyRound_le_intCast (d := 1) this
      exact_mod_cast this
    · intro h
      exact absurd (by simp [h]) hE
    · intro h
      exact absurd (by simp [h]) hC
  · -- low-risk branch: projection within the budget
    have hs : 0 ≤ (budget - projectedTotal now l) / budget * 100 := by
      have h1 : 0 ≤ budget - projectedTotal now l := by
        have := not_lt.mp hP
        linarith
      positivity
    refine ⟨pyRound_nonneg (le_max_left _ _), ?_, ?_, ?_⟩
    · have : max (0 : ℚ) (50 - (budget - projectedTotal now l) / budget * 100)
          ≤ ((100 : ℤ) : ℚ) := by
        refine max_le (by norm_num) (by push_cast; linarith)
      have := pyRound_le_intCast (d := 1) this
      exact_mod_cast this
    · intro h
      exact absurd (by simp [h]) hE
    · intro h
      exact absurd (by simp [h]) hC

/-- C10 witness: a single current-month transaction of 400 on day 12
against budget 1000 produces a probability inside `[0, 100]`, and the
empty ledger produces probability 0. -/
theorem predict_budget_breach_bounds_witness :
    (0 ≤ (predict_budget_breach ⟨2025, 10, 12⟩
        [⟨⟨2025, 10, 2⟩, "Food", 400, ""⟩] 1000).1 ∧
      (predict_budget_breach ⟨2025, 10, 12⟩
        [⟨⟨2025, 10, 2⟩, "Food", 400, ""⟩] 1000).1 ≤ 100) ∧
    (predict_budget_breach ⟨2025, 10, 12⟩ [] 1000).1 = 0 := by
  have h1 := predict_budget_breach_bounds ⟨2025, 10, 12⟩
    [⟨⟨2025, 10, 2⟩, "Food", 400, ""⟩] 1000 (by norm_num)
  have h2 := predict_budget_breach_bounds ⟨2025, 10, 12⟩ [] 1000 (by norm_num)
  exact ⟨⟨h1.1, h1.2.1⟩, h2.2.2.1 rfl⟩

/-- C9: the anomaly threshold comparison is strict — every returned
z-score strictly exceeds 2.5, and a row whose z-score is exactly 2.5 is
never in the result. -/
theorem detect_anomalies_strict_threshold (l : Ledger) (p : Transaction × ℝ) :
    (p ∈ detect_spending_anomalies l → 2.5 < p.2) ∧
    (p.2 = 2.5 → p ∉ detect_spending_anomalies l) := by
  have hstrict : ∀ q ∈ detect_spending_anomalies l, (2.5 : ℝ) < q.2 := by
    intro q hq
    unfold detect_spending_anomalies at hq
    split_ifs at hq with h
    · simp at hq
    · simpa using List.of_mem_filter hq
  exact ⟨fun hp => hstrict p hp, fun h25 hp => by
    have := hstrict p hp
    rw [h25] at this
    exact lt_irrefl _ this⟩

/-- A ten-row ledger with nine 0-amount rows and a single 10: the mean
is 1, the population standard deviation is 3, and only the 10-row has
z-score above the threshold (exactly 3). -/
def anomLedger : Ledger :=
  [⟨⟨2025, 9, 1⟩, "Food", 0, ""⟩, ⟨⟨2025, 9, 2⟩, "Food", 0, ""⟩,
   ⟨⟨2025, 9, 3⟩, "Food", 0, ""⟩, ⟨⟨2025, 9, 4⟩, "Food", 0, ""⟩,
   ⟨⟨2025, 9, 5⟩, "Food", 0, ""⟩, ⟨⟨2025, 9, 6⟩, "Food", 0, ""⟩,
   ⟨⟨2025, 9, 7⟩, "Food", 0, ""⟩, ⟨⟨2025, 9, 8⟩, "Food", 0, ""⟩,
   ⟨⟨2025, 9, 9⟩, "Food", 0, ""⟩, ⟨⟨2025, 9, 10⟩, "Food", 10, ""⟩]

lemma amountsOf_anomLedger :
    amountsOf anomLedger = [0, 0, 0, 0, 0, 0, 0, 0, 0, 10] := by
  simp [amountsOf, anomLedger]

lemma amountsMean_anomLedger : amountsMean anomLedger = 1 := by
  rw [amountsMean, amountsOf_anomLedger]
  norm_num

lemma amountsStd_anomLedger : amountsStd anomLedger = 3 := by
  rw [amountsStd, amountsOf_anomLedger]
  unfold popStd
  have harg : ((([0, 0, 0, 0, 0, 0, 0, 0, 0, 10] : List ℝ).map
      (fun r => (r - ([0, 0, 0, 0, 0, 0, 0, 0, 0, 10] : List ℝ).sum
        / ((([0, 0, 0, 0, 0, 0, 0, 0, 0, 10] : List ℝ).length : ℕ) : ℝ)) ^ 2)).sum
      / ((([0, 0, 0, 0, 0, 0, 0, 0, 0, 10] : List ℝ).length : ℕ) : ℝ)) = 9 := by
    norm_num
  rw [harg, show (9 : ℝ) = 3 ^ 2 by norm_num, Real.sqrt_sq (by norm_num)]

lemma zScores_anomLedger :
    zScores anomLedger
      = [1/3, 1/3, 1/3, 1/3, 1/3, 1/3, 1/3, 1/3, 1/3, 3] := by
  unfold zScores
  rw [amountsOf_anomLedger, amountsMean_anomLedger, amountsStd_anomLedger]
  norm_num

lemma detect_anomalies_eval_anomLedger :
    detect_spending_anomalies anomLedger
      = [(⟨⟨2025, 9, 10⟩, "Food", 10, ""⟩, 3)] := by
  unfold detect_spending_anomalies
  rw [if_neg (by decide), zScores_anomLedger]
  simp only [anomLedger, List.zip_cons_cons, List.zip_nil_left, List.zip_nil_right,
    List.filter_cons, List.filter_nil, decide_eq_true_eq]
  norm_num

/-- C9 witness: in the nine-zeros-one-ten ledger the flagged z-score 3
strictly exceeds 2.5, and a pair carrying z-score exactly 2.5 is not
in the anomaly list. -/
theorem detect_anomalies_strict_threshold_witness :
    (2.5 : ℝ) < ((⟨⟨2025, 9, 10⟩, "Food", 10, ""⟩, (3 : ℝ)) :
        Transaction × ℝ).2 ∧
    ((⟨⟨2025, 9, 1⟩, "Food", 0, ""⟩, (2.5 : ℝ)) : Transaction × ℝ)
      ∉ detect_spending_anomalies anomLedger :=
  ⟨(detect_anomalies_strict_threshold anomLedger _).1
      (by rw [detect_anomalies_eval_anomLedger]; exact List.mem_singleton.mpr rfl),
   (detect_anomalies_strict_threshold anomLedger _).2 rfl⟩

/-- Summing a pointwise-rounded list moves the total by at most the list
length times the pointwise bound. -/
lemma abs_sum_map_sub_sum_map_le {β : Type} (xs : List β) (f g : β → ℚ) (ε : ℚ)
    (h : ∀ x ∈ xs, |f x - g x| ≤ ε) :
    |(xs.map f).sum - (xs.map g).sum| ≤ (xs.length : ℚ) * ε := by
  induction xs with
  | nil => simp
  | cons a as ih =>
    have h1 := h a (List.mem_cons_self a as)
    have h2 := ih (fun x hx => h x (List.mem_cons_of_mem a hx))
    simp only [List.map_cons, List.sum_cons, List.length_cons]
    have key : f a + (as.map f).sum - (g a + (as.map g).sum)
        = (f a - g a) + ((as.map f).sum - (as.map g).sum) := by ring
    rw [key]
    calc |(f a - g a) + ((as.map f).sum - (as.map g).sum)|
        ≤ |f a - g a| + |(as.map f).sum - (as.map g).sum| := abs_add _ _
      _ ≤ ε + (as.length : ℚ) * ε := add_le_add h1 h2
      _ = ((as.length : ℚ) + 1) * ε := by ring
      _ = ((as.length + 1 : ℕ) : ℚ) * ε := by push_cast; ring

/-- C8 (amended): when the ledger's total spend is nonzero, the
recommended amounts sum to `total_budget` up to the accumulated rounding
slack (half a cent per returned category), and every returned category
occurs in the ledger. -/
theorem recommend_budgets_sum_and_support (l : Ledger) (B : ℚ)
    (hT : totalSpending l ≠ 0) :
    |((recommend_category_budgets l B).map Prod.snd).sum - B|
        ≤ ((recommend_category_budgets l B).length : ℚ) / 200 ∧
    ∀ p ∈ recommend_category_budgets l B, p.1 ∈ l.map Transaction.category := by
  have hne : l.isEmpty = false := by
    cases l with
    | nil => exact absurd (show totalSpending [] = 0 from rfl) hT
    | cons a as => rfl
  simp only [recommend_category_budgets, hne, Bool.false_eq_true, if_false,
    if_neg hT]
  constructor
  · -- the rounded shares sum to B within n/200
    have hsum : ((sortedCategories l).map
        (fun c => categoryTotal l c / totalSpending l * B)).sum = B := by
      have hfun : (fun c => categoryTotal l c / totalSpending l * B)
          = fun c => categoryTotal l c * (B / totalSpending l) := by
        funext c; ring
      rw [hfun, List.sum_map_mul_right]
      have : ((sortedCategories l).map (categoryTotal l)).sum = totalSpending l := rfl
      rw [this]
      field_simp
    have hbound := abs_sum_map_sub_sum_map_le (sortedCategories l)
      (fun c => pyRound 2 (categoryTotal l c / totalSpending l * B))
      (fun c => categoryTotal l c / totalSpending l * B) (1/200)
      (fun c _ => by
        have := abs_pyRound_sub_le (α := ℚ) 2 (categoryTotal l c / totalSpending l * B)
        norm_num at this ⊢
        exact this)
    rw [List.map_map, List.length_map]
    have hcomp : (Prod.snd ∘ fun c =>
        (c, pyRound 2 (categoryTotal l c / totalSpending l * B)))
        = fun c => pyRound 2 (categoryTotal l c / totalSpending l * B) := rfl
    rw [hcomp]
    calc |((sortedCategories l).map
          (fun c => pyRound 2 (categoryTotal l c / totalSpending l * B))).sum - B|
        = |((sortedCategories l).map
            (fun c => pyRound 2 (categoryTotal l c / totalSpending l * B))).sum
          - ((sortedCategories l).map
            (fun c => categoryTotal l c / totalSpending l * B)).sum| := by rw [hsum]
      _ ≤ ((sortedCategories l).length : ℚ) * (1/200) := hbound
      _ = ((sortedCategories l).length : ℚ) / 200 := by ring
  · -- support: every returned category occurs in the ledger
    intro p hp
    obtain ⟨c, hc, hpc⟩ := List.mem_map.mp hp
    have hc' : c ∈ (l.map Transaction.category).dedup :=
      (mem_sortAsc _ c _).mp hc
    rw [← hpc]
    exact List.mem_dedup.mp hc'

/-- C8 witness: a two-transaction ledger with total spend 1000 and
budget 1000 satisfies both the sum bound and the support condition. -/
theorem recommend_budgets_sum_and_support_witness :
    |((recommend_category_budgets
        [⟨⟨2025, 9, 1⟩, "Food", 300, ""⟩, ⟨⟨2025, 9, 2⟩, "Food", 700, ""⟩]
        1000).map Prod.snd).sum - 1000|
      ≤ ((recommend_category_budgets
        [⟨⟨2025, 9, 1⟩, "Food", 300, ""⟩, ⟨⟨2025, 9, 2⟩, "Food", 700, ""⟩]
        1000).length : ℚ) / 200 ∧
    ∀ p ∈ recommend_category_budgets
        [⟨⟨2025, 9, 1⟩, "Food", 300, ""⟩, ⟨⟨2025, 9, 2⟩, "Food", 700, ""⟩] 1000,
      p.1 ∈ [⟨⟨2025, 9, 1⟩, "Food", 300, ""⟩,
        (⟨⟨2025, 9, 2⟩, "Food", 700, ""⟩ : Transaction)].map Transaction.category :=
  recommend_budgets_sum_and_support _ 1000 (by
    norm_num [totalSpending, sortedCategories, sortAsc, insertAsc, categoryTotal])

/-- C8 counterexample: on the empty ledger the result is empty, so the
recommended amounts sum to 0, not to the requested budget 1000 — no
rounding tolerance (here 0, with zero returned categories) bridges the
gap.  The unrestricted "for every ledger" form of the claim is
therefore false. -/
theorem recommend_budgets_empty_ledger_counterexample :
    ((recommend_category_budgets [] 1000).map Prod.snd).sum = 0 ∧
    ¬ (|((recommend_category_budgets [] 1000).map Prod.snd).sum - 1000|
        ≤ ((recommend_category_budgets [] 1000).length : ℚ) / 200) := by
  constructor
  · rfl
  · intro h
    norm_num [recommend_category_budgets] at h

end ExpenseTracker
